import Mathlib

set_option maxHeartbeats 1000000
set_option maxRecDepth 8000

/-!
Shallow embedding of the ActivityLogger repository (src/bot.py and
src/features/report.py) and proofs about its session state machine,
time parsing and daily-report generation.

Modelling conventions:
* Python strings are Lean strings; the str helpers used by the source
  (strip, lower, split, capitalize, startswith, join, slicing) are
  embedded below over the character list of a string, covering ASCII and
  the Cyrillic range actually used by the bot's keywords.
* Spreadsheet cells are strings.  The only machine floats in the core
  (the fractional-day time branch of parse_start_time_from_cells) are
  modelled as exact rationals; the decimal cell strings that reach that
  branch are exactly representable as rationals.
* datetime values are modelled by calendar date, time of day (seconds
  precision) and an optional timezone name.  Subtraction of two aware
  datetimes is modelled with a fixed UTC offset: both operands always
  carry the same fixed zone, and DST transitions are outside the model.
  Sub-second fractions (microseconds of datetime.now) are dropped; for
  int(total_seconds/60) they can only matter within one second of an
  exact minute boundary.
* The wall clock is threaded through as an explicit `now` argument;
  get_local_now() attaches the fixed timezone to it.
* Collaborators (Google Sheets, the GPT call) are explicit: the sheet is
  a header row plus data rows, mutations are returned as instructions,
  and the GPT call is a function from the prompt to a result, where
  `Except.error` models a raised exception.
-/

namespace ActivityLogger

/-- Python whitespace as used by str.strip and str.split (ASCII subset). -/
def isPySpace (c : Char) : Bool :=
  c == ' ' || c == '\t' || c == '\n' || c == '\r' || c == '\x0b' || c == '\x0c'

/-- Drop leading and trailing whitespace from a character list (str.strip). -/
def stripChars (l : List Char) : List Char :=
  ((l.dropWhile isPySpace).reverse.dropWhile isPySpace).reverse

/-- Python str.strip(). -/
def pyStrip (s : String) : String := ⟨stripChars s.data⟩

/-- Python str.lower() on one character: ASCII letters and the Cyrillic
letters used by the bot's keywords; other characters are unchanged. -/
def pyLowerChar (c : Char) : Char :=
  if 'A' ≤ c ∧ c ≤ 'Z' then Char.ofNat (c.toNat + 32)
  else if 'А' ≤ c ∧ c ≤ 'Я' then Char.ofNat (c.toNat + 32)
  else if c = 'Ё' then 'ё'
  else c

/-- Upper-casing of one character, used by str.capitalize (ASCII and
Cyrillic ranges as in `pyLowerChar`). -/
def pyUpperChar (c : Char) : Char :=
  if 'a' ≤ c ∧ c ≤ 'z' then Char.ofNat (c.toNat - 32)
  else if 'а' ≤ c ∧ c ≤ 'я' then Char.ofNat (c.toNat - 32)
  else if c = 'ё' then 'Ё'
  else c

/-- Python str.lower(). -/
def pyLower (s : String) : String := ⟨s.data.map pyLowerChar⟩

/-- Python str.capitalize(): first character upper-cased, the rest
lower-cased. -/
def pyCapitalize (s : String) : String :=
  match s.data with
  | [] => ("")
  | c :: cs => ⟨pyUpperChar c :: cs.map pyLowerChar⟩

/-- Split a character list at every occurrence of `c` (str.split(sep)
semantics: empty pieces are kept). -/
def splitOnChar (c : Char) : List Char → List (List Char)
  | [] => [[]]
  | x :: xs =>
    if x = c then [] :: splitOnChar c xs
    else
      match splitOnChar c xs with
      | [] => [[x]]
      | p :: ps => (x :: p) :: ps

/-- Worker for whitespace splitting: `acc` is the current token,
reversed.  Mirrors str.split() with no argument: runs of whitespace
separate tokens and empty tokens are dropped. -/
def wsTokensGo : List Char → List Char → List (List Char)
  | [], acc => if acc.isEmpty then [] else [acc.reverse]
  | c :: cs, acc =>
    if isPySpace c then
      if acc.isEmpty then wsTokensGo cs []
      else acc.reverse :: wsTokensGo cs []
    else wsTokensGo cs (c :: acc)

/-- Python str.split() with no argument. -/
def pySplit (s : String) : List String :=
  (wsTokensGo s.data []).map (fun l => (⟨l⟩ : String))

/-- Python text.startswith(tuple_of_prefixes). -/
def startsWithAny (s : String) (ks : List String) : Bool :=
  ks.any (fun k => k.data.isPrefixOf s.data)

/-- Python s[:n] (slicing counts code points). -/
def pyTake (s : String) (n : Nat) : String := ⟨s.data.take n⟩

/-- Value of a list of decimal digit characters. -/
def digitsToNat (l : List Char) : Nat :=
  l.foldl (fun acc c => 10 * acc + (c.toNat - 48)) 0

/-- The decimal digit character for `n < 10`. -/
def digitChar (n : Nat) : Char := Char.ofNat (48 + n)

/-- Two-digit zero-padded rendering, as strftime %H/%M/%S/%m/%d produce
for their in-range values. -/
def pad2 (n : Nat) : List Char := [digitChar (n / 10), digitChar (n % 10)]

/-- Four-digit zero-padded rendering of a year (strftime %Y for years
1000-9999, the only years the proofs assume). -/
def pad4 (n : Nat) : List Char :=
  [digitChar (n / 1000), digitChar (n / 100 % 10), digitChar (n / 10 % 10), digitChar (n % 10)]

/-- Calendar date (datetime.date). -/
structure PyDate where
  year : Nat
  month : Nat
  day : Nat
deriving DecidableEq

/-- Time of day at seconds precision (datetime.time). -/
structure PyTime where
  hour : Nat
  minute : Nat
  second : Nat
deriving DecidableEq

/-- Aware or naive datetime: date, time of day and optional timezone
name. -/
structure PyDateTime where
  date : PyDate
  time : PyTime
  tz : Option String
deriving DecidableEq

/-- The fixed timezone of bot.py: ZoneInfo("Europe/Warsaw"). -/
def TZname : String := ("Europe/Warsaw")

/-- get_local_now(): datetime.now(TZ).  The ambient wall clock is the
explicit `now` argument; this attaches the fixed timezone to it. -/
def localNow (now : PyDateTime) : PyDateTime :=
  { date := now.date, time := now.time, tz := some TZname }

/-- strftime("%H:%M:%S"). -/
def formatHMS (t : PyTime) : String :=
  ⟨pad2 t.hour ++ ':' :: pad2 t.minute ++ ':' :: pad2 t.second⟩

/-- strftime("%H:%M"). -/
def formatHM (t : PyTime) : String :=
  ⟨pad2 t.hour ++ ':' :: pad2 t.minute⟩

/-- strftime("%Y-%m-%d"). -/
def formatYMD (d : PyDate) : String :=
  ⟨pad4 d.year ++ '-' :: pad2 d.month ++ '-' :: pad2 d.day⟩

/-- Gregorian leap-year rule, as datetime uses. -/
def isLeapYear (y : Nat) : Bool :=
  y % 4 == 0 && (y % 100 != 0 || y % 400 == 0)

/-- Number of days of a month, as datetime validates them. -/
def daysInMonth (y m : Nat) : Nat :=
  if m = 2 then (if isLeapYear y then 29 else 28)
  else if m = 4 ∨ m = 6 ∨ m = 9 ∨ m = 11 then 30
  else 31

/-- Parse one or two digit characters as a number at most `hi`
(strptime's %H/%M/%S/%m/%d directives). -/
def parseNum2 (l : List Char) (hi : Nat) : Option Nat :=
  if l ≠ [] ∧ l.length ≤ 2 ∧ l.all Char.isDigit then
    if digitsToNat l ≤ hi then some (digitsToNat l) else none
  else none

/-- datetime.strptime(text, "%H:%M").time(): the whole string must be
hour:minute with in-range values.  Seconds of the result are 0. -/
def parseHM (l : List Char) : Option PyTime :=
  match splitOnChar ':' l with
  | [hs, ms] =>
    match parseNum2 hs 23, parseNum2 ms 59 with
    | some h, some m => some ⟨h, m, 0⟩
    | _, _ => none
  | _ => none

/-- datetime.strptime(text, "%H:%M:%S").time(). -/
def parseHMS (l : List Char) : Option PyTime :=
  match splitOnChar ':' l with
  | [hs, ms, ss] =>
    match parseNum2 hs 23, parseNum2 ms 59, parseNum2 ss 59 with
    | some h, some m, some s => some ⟨h, m, s⟩
    | _, _, _ => none
  | _ => none

/-- datetime.strptime(text, "%Y-%m-%d").date(): four-digit year,
one-or-two digit month and day, with calendar validation. -/
def parseYMD (l : List Char) : Option PyDate :=
  match splitOnChar '-' l with
  | [ys, ms, ds] =>
    if ys.length = 4 ∧ ys.all Char.isDigit then
      match parseNum2 ms 12, parseNum2 ds 31 with
      | some m, some d =>
        if 1 ≤ m ∧ 1 ≤ d ∧ d ≤ daysInMonth (digitsToNat ys) m then
          some ⟨digitsToNat ys, m, d⟩
        else none
      | _, _ => none
    else none
  | _ => none

/-- datetime.fromisoformat(text).date(), modelled as the calendar-date
form YYYY-MM-DD.  CPython also accepts a time suffix after the date,
which would only change which malformed date cells fall back to today's
date; no claim depends on such cells. -/
def pyFromIso (l : List Char) : Option PyDate := parseYMD l

/-- Test of the source's ``"." in time_raw`` guard. -/
def containsDot (l : List Char) : Bool := l.contains '.'

/-- Python str.isdigit() (ASCII digits; the exotic Unicode digits it
also accepts never reach this code). -/
def pyIsDigit (l : List Char) : Bool := !l.isEmpty && l.all Char.isDigit

/-- Unsigned part of Python float(text) for plain decimal notation
(digits, optionally a dot and more digits, at least one digit in all).
Exponents, underscores, inf and nan are not modelled: no spreadsheet
time cell the claims mention uses them. -/
def parseUnsignedFloat (l : List Char) : Option ℚ :=
  let ip := l.takeWhile Char.isDigit
  let rest := l.dropWhile Char.isDigit
  match rest with
  | [] => if ip.isEmpty then none else some ((digitsToNat ip : ℚ))
  | '.' :: frac =>
    if frac.all Char.isDigit ∧ (ip ≠ [] ∨ frac ≠ []) then
      some ((digitsToNat ip : ℚ) + (digitsToNat frac : ℚ) / (10 : ℚ) ^ frac.length)
    else none
  | _ => none

/-- Python float(text) with an optional sign, as exact rational. -/
def pyParseFloat (l : List Char) : Option ℚ :=
  match l with
  | '+' :: rest => parseUnsignedFloat rest
  | '-' :: rest => (parseUnsignedFloat rest).map (fun q => -q)
  | _ => parseUnsignedFloat l

/-- The fractional-day numeric time branch of parse_start_time_from_cells:
if the cell looks numeric and parses as a float in [0, 1), it becomes
round-half-up(fraction * 1440) minutes past midnight.  int() on the
nonnegative value is floor; when the resulting hour is 24 the datetime
constructor raises, the exception is swallowed and the branch yields
nothing. -/
def fractionalTime (time_raw : List Char) : Option PyTime :=
  if containsDot time_raw || pyIsDigit time_raw then
    match pyParseFloat time_raw with
    | some q =>
      if 0 ≤ q ∧ q < 1 then
        let total_minutes := (Int.floor (q * 24 * 60 + 1 / 2)).toNat
        if total_minutes / 60 ≤ 23 then
          some ⟨total_minutes / 60, total_minutes % 60, 0⟩
        else none
      else none
    | none => none
  else none

/-- Time-cell parsing chain of parse_start_time_from_cells: the numeric
branch, then "%H:%M", then "%H:%M:%S". -/
def tryParseTimeCell (time_raw : List Char) : Option PyTime :=
  match fractionalTime time_raw with
  | some t => some t
  | none =>
    match parseHM time_raw with
    | some t => some t
    | none => parseHMS time_raw

/-- Date-cell parsing chain of parse_start_time_from_cells: strict
"%Y-%m-%d", then fromisoformat. -/
def tryParseDateCell (date_raw : List Char) : Option PyDate :=
  match parseYMD date_raw with
  | some d => some d
  | none => pyFromIso date_raw

/-- parse_start_time_from_cells(date_str, time_str) of bot.py: a total
best-effort parse of the two stored cells.  `none` cells model Python
None arguments.  Every fallback substitutes the current instant or
today's date, with a log line that is outside the model. -/
def parse_start_time_from_cells (date_str time_str : Option String)
    (now : PyDateTime) : PyDateTime :=
  let date_raw := pyStrip (date_str.getD (""))
  let time_raw := pyStrip (time_str.getD (""))
  let date_obj : PyDate :=
    if date_raw = ("") then (localNow now).date
    else
      match tryParseDateCell date_raw.data with
      | some d => d
      | none => (localNow now).date
  if time_raw = ("") then localNow now
  else
    match tryParseTimeCell time_raw.data with
    | some t => { date := date_obj, time := t, tz := some TZname }
    | none => localNow now

/-- format_duration(minutes) of bot.py.  The argument is an int in the
source; Python's // and % on it are floor division and nonnegative
remainder. -/
def format_duration (minutes : Int) : String :=
  if minutes < 60 then toString minutes ++ (" min")
  else
    let hours := Int.fdiv minutes 60
    let mins := Int.emod minutes 60
    if 0 < mins then toString hours ++ (" h ") ++ toString mins ++ (" min")
    else toString hours ++ (" h")

/-- parse_time(text) of bot.py: strptime "%H:%M" combined with today's
date in the fixed timezone, or None. -/
def parse_time (text : String) (now : PyDateTime) : Option PyDateTime :=
  match parseHM text.data with
  | some t => some { date := (localNow now).date, time := t, tz := some TZname }
  | none => none

/-- Rata-die day number of a civil date (standard days-from-civil
algorithm); used only so that subtracting two datetimes is well defined
across dates. -/
def PyDate.rataDie (d : PyDate) : Int :=
  let y : Int := if d.month ≤ 2 then (d.year : Int) - 1 else (d.year : Int)
  let era : Int := Int.fdiv y 400
  let yoe : Int := y - era * 400
  let mp : Int := (((d.month + 9) % 12 : Nat) : Int)
  let doy : Int := Int.tdiv (153 * mp + 2) 5 + (d.day : Int) - 1
  let doe : Int := yoe * 365 + Int.tdiv yoe 4 - Int.tdiv yoe 100 + doy
  era * 146097 + doe - 719468

/-- Seconds since midnight. -/
def PyTime.secondsOfDay (t : PyTime) : Int :=
  3600 * (t.hour : Int) + 60 * (t.minute : Int) + (t.second : Int)

/-- Seconds on a linear time scale; the difference of two values models
(a - b).total_seconds() for two datetimes of the same fixed zone. -/
def PyDateTime.toEpochSeconds (dt : PyDateTime) : Int :=
  dt.date.rataDie * 86400 + dt.time.secondsOfDay

/-- A record as gspread's get_all_records returns it: string keys in
header order mapped to cell strings. -/
abbrev Dict := List (String × String)

/-- dict.get(key) as an option (None when the key is absent). -/
def pyGetOpt (d : Dict) (k : String) : Option String :=
  match d.find? (fun kv => kv.fst == k) with
  | some kv => some kv.snd
  | none => none

/-- dict.get(key, default). -/
def pyGetD (d : Dict) (k v : String) : String := (pyGetOpt d k).getD v

/-- dict.get(key) rendered inside an f-string: a missing key prints as
"None". -/
def pyGetRepr (d : Dict) (k : String) : String := (pyGetOpt d k).getD ("None")

/-- The spreadsheet: the header row naming the columns, then the data
rows. -/
structure Sheet where
  header : List String
  rows : List (List String)
deriving DecidableEq

/-- One record of get_all_records: each header name mapped to the cell
below it, or "" when the row is shorter. -/
def recordOfRow (header row : List String) : Dict :=
  header.enum.map (fun p => (p.snd, row.getD p.fst ("")))

/-- sheet.get_all_records(). -/
def get_all_records (s : Sheet) : List Dict :=
  s.rows.map (recordOfRow s.header)

/-- A persistence instruction emitted by the handler: sheet.append_row
or sheet.update_cell (1-based row including the header row, 1-based
column). -/
inductive Mutation where
  | appendRow : List String → Mutation
  | updateCell : Nat → Nat → String → Mutation
deriving DecidableEq

/-- What one inbound message produces: the persistence instructions in
order, and the reply texts in order. -/
structure EchoResult where
  mutations : List Mutation
  replies : List String
deriving DecidableEq

/-- Apply one persistence instruction to the sheet.  update_cell row
r is data row r - 2 (1-based with a header row); both rows and columns
stay within the five-column shape the bot writes. -/
def applyMutation (s : Sheet) : Mutation → Sheet
  | Mutation.appendRow cells => { s with rows := s.rows ++ [cells] }
  | Mutation.updateCell rowNumber colNumber value =>
    let i := rowNumber - 2
    { s with rows := s.rows.set i ((s.rows.getD i []).set (colNumber - 1) value) }

/-- Apply a list of instructions in order. -/
def applyAll (s : Sheet) (ms : List Mutation) : Sheet := ms.foldl applyMutation s

/-- The open-session test of bot.py: rec.get("End Time", "").strip() == "". -/
def isOpenDict (r : Dict) : Bool := pyStrip (pyGetD r ("End Time") ("")) == ("")

/-- The backward scan of bot.py, `for idx in range(len(records)-1, -1, -1)`:
try index n-1 first, stop at the first open record. -/
def findOpenFrom (records : List Dict) : Nat → Option (Nat × Dict)
  | 0 => none
  | n + 1 =>
    if isOpenDict (records.getD n []) then some (n, records.getD n [])
    else findOpenFrom records n

/-- The resolved open session: the most recent record with an empty
trimmed End Time, if any. -/
def findOpenRecord (records : List Dict) : Option (Nat × Dict) :=
  findOpenFrom records records.length

/-- Number of open records. -/
def openCount (records : List Dict) : Nat := records.countP isOpenDict

/-- Number of open records of a sheet. -/
def sheetOpenCount (s : Sheet) : Nat := openCount (get_all_records s)

/-- The five columns the bot appends positionally and reads back by
these names in its session logic. -/
def stdHeader : List String :=
  [("Date"), ("Activity"), ("Start Time"), ("End Time"), ("Duration")]

/-- The end keywords of bot.py, tried as prefixes of the lower-cased
text. -/
def endKeywords : List String :=
  [("end"), ("stop"), ("стоп"), ("конец"), ("finish")]

/-- The report keywords of bot.py (the capitalized variant is dead since
the compared text is already lower-cased, but it is kept as in the
source). -/
def reportKeywords : List String :=
  [("репорт"), ("Репорт"), ("report")]

/-- Names bound in the module and function scope of
features/report.py's except handler: the module imports plus the local
`import traceback`.  `logging` is not among them, which is what makes
the handler itself raise NameError. -/
def reportModuleScope : List String :=
  [("os"), ("datetime"), ("ZoneInfo"), ("OpenAI"), ("TZ"), ("OPENAI_API_KEY"),
   ("PROMPT_GPT"), ("generate_daily_report_with_gpt"), ("traceback")]

/-- Line of the today block for one record: f"{activity} — {duration}\n". -/
def todayLine (r : Dict) : String :=
  pyStrip (pyGetD r ("Activity") ("")) ++ (" — ") ++ pyStrip (pyGetD r ("Duration") ("")) ++ ("\n")

/-- Line of the full table for one record: f"{date_val}\t{activity}\t{duration}\n". -/
def tableLine (r : Dict) : String :=
  pyStrip (pyGetD r ("Date Activity") ("")) ++ ("\t")
    ++ pyStrip (pyGetD r ("Activity") ("")) ++ ("\t")
    ++ pyStrip (pyGetD r ("Duration") ("")) ++ ("\n")

/-- generate_daily_report_with_gpt(sheet) of features/report.py.
`gpt` is the collaborator: it receives the prompt and returns the
answer text, or `Except.error` when the call raises.  The result is
`Except.ok` for a normal return and `Except.error` for an exception
escaping the function.  When the collaborator raises, the except
handler evaluates `logging.error`; `logging` is not bound in
report.py's scope, so the handler raises NameError, which escapes. -/
def generate_daily_report_with_gpt (sheet : Sheet) (now : PyDateTime)
    (gpt : String → Except String String) (promptGpt : String) :
    Except String String :=
  let records := get_all_records sheet
  if records.isEmpty then Except.ok ("📭 Таблица пуста, нет данных для анализа.")
  else
    let today_str := formatYMD (localNow now).date
    let todayRecs := records.filter
      (fun r => pyStrip (pyGetD r ("Date Activity") ("")) == today_str)
    let today_activities :=
      ("📅 Активности на сегодня:\n")
        ++ String.join (todayRecs.map todayLine)
        ++ (if todayRecs.isEmpty then ("Нет активностей за сегодня.\n") else (""))
    let table_text := ("Date Activity\tActivity\tDuration\n")
        ++ String.join (records.map tableLine)
    let prompt := promptGpt ++ ("\n\n") ++ table_text
    match gpt prompt with
    | Except.ok response =>
      let answer := pyStrip response
      Except.ok (today_activities ++ ("\n") ++ ("📋 Обзор:\n") ++ answer)
    | Except.error e =>
      if ("logging") ∈ reportModuleScope then
        Except.ok (("⚠️ Ошибка при обращении к GPT: ") ++ e)
      else Except.error ("NameError: name \x27logging\x27 is not defined")

/-- Reply text of the report path's except branch.  The traceback text
appended by the source is runtime-dependent and modelled as empty. -/
def reportErrorText (e : String) : String :=
  ("❌ Ошибка при генерации отчёта:\n\n") ++ e ++ ("\n\n")

/-- The echo message handler of bot.py as a pure step function: given
the credential state, the sheet, the inbound text, the wall clock and
the GPT collaborator, it yields the persistence instructions and the
replies.  Control flow mirrors the source: credential guard, report
keywords, open-session scan, end-keyword path, blocked-start path,
start path.  The dictionary subscript open_record[1]['Activity'] of the
blocked-start reply raises KeyError when the key is absent; the outer
except turns that into the generic error reply. -/
def echo (credsOk : Bool) (sheet : Sheet) (msgText : String) (now : PyDateTime)
    (gpt : String → Except String String) (promptGpt : String) : EchoResult :=
  if credsOk = false then
    ⟨[], [("⚠️ Ошибка подключения к Google Sheets. Учетные данные не загружены.")]⟩
  else
    let raw_text := pyStrip msgText
    let text := pyStrip (pyLower raw_text)
    if (pyLower text) ∈ reportKeywords then
      match generate_daily_report_with_gpt sheet now gpt promptGpt with
      | Except.ok analysis => ⟨[], [analysis]⟩
      | Except.error e => ⟨[], [pyTake (reportErrorText e) 4000]⟩
    else
      let records := get_all_records sheet
      let open_record := findOpenRecord records
      if startsWithAny text endKeywords then
        match open_record with
        | none => ⟨[], [("⚠️ Нет открытых активностей для завершения.")]⟩
        | some (idx, rec) =>
          let parts := pySplit raw_text
          let custom_end := if 2 ≤ parts.length then parse_time (parts.getLastD ("")) now else none
          let start_dt := parse_start_time_from_cells
            (some (pyGetD rec ("Date") (""))) (some (pyGetD rec ("Start Time") (""))) now
          let end_dt :=
            match custom_end with
            | none => localNow now
            | some ce => { date := start_dt.date, time := ce.time, tz := some TZname }
          let duration_min := Int.tdiv (end_dt.toEpochSeconds - start_dt.toEpochSeconds) 60
          let duration_str := format_duration duration_min
          let row_number := idx + 2
          let actName := pyGetRepr rec ("Activity")
          ⟨[Mutation.updateCell row_number 4 (formatHMS end_dt.time),
            Mutation.updateCell row_number 5 duration_str],
           [("✅ Ended \x27") ++ actName ++ ("\x27 (") ++ duration_str ++ (")")]⟩
      else
        match open_record with
        | some (_, rec) =>
          match pyGetOpt rec ("Activity") with
          | some actName =>
            ⟨[], [("⚠️ Сначала завершите предыдущую активность \x27") ++ actName ++ ("\x27!")]⟩
          | none => ⟨[], [("⚠️ Произошла ошибка, проверьте логи.")]⟩
        | none =>
          let parts := pySplit raw_text
          if parts.isEmpty then ⟨[], [("⚠️ Пустое сообщение.")]⟩
          else
            let custom_start := parse_time (parts.getLastD ("")) now
            let activity :=
              match custom_start with
              | some _ => pyCapitalize (pyStrip (String.intercalate (" ") parts.dropLast))
              | none => pyCapitalize (pyStrip (String.intercalate (" ") parts))
            let start_dt :=
              match custom_start with
              | some st => st
              | none => localNow now
            ⟨[Mutation.appendRow
                [formatYMD start_dt.date, activity, formatHMS start_dt.time, (""), ("")]],
             [("🏁 Started \x27") ++ activity ++ ("\x27 at ") ++ formatHM start_dt.time]⟩

/-! Helper lemmas about the open-session scan and the open-record count. -/

lemma findOpenFrom_eq_none_iff (records : List Dict) :
    ∀ n, findOpenFrom records n = none ↔
      ∀ i, i < n → isOpenDict (records.getD i []) = false := by
  intro n
  induction n with
  | zero => simp [findOpenFrom]
  | succ m ih =>
    constructor
    · intro h i hi
      rw [findOpenFrom] at h
      by_cases hm : isOpenDict (records.getD m []) = true
      · rw [if_pos hm] at h; cases h
      · rw [if_neg hm] at h
        rcases Nat.lt_succ_iff_lt_or_eq.mp hi with hlt | heq
        · exact (ih.mp h) i hlt
        · subst heq; exact Bool.eq_false_iff.mpr hm
    · intro h
      rw [findOpenFrom]
      have hm := h m (Nat.lt_succ_self m)
      rw [if_neg (by rw [hm]; exact Bool.false_ne_true)]
      exact ih.mpr (fun i hi => h i (Nat.lt_succ_of_lt hi))

lemma findOpenFrom_eq_some (records : List Dict) :
    ∀ n i r, findOpenFrom records n = some (i, r) →
      i < n ∧ r = records.getD i [] ∧ isOpenDict r = true ∧
        ∀ j, i < j → j < n → isOpenDict (records.getD j []) = false := by
  intro n
  induction n with
  | zero => intro i r h; simp [findOpenFrom] at h
  | succ m ih =>
    intro i r h
    rw [findOpenFrom] at h
    by_cases hm : isOpenDict (records.getD m []) = true
    · rw [if_pos hm] at h
      simp only [Option.some.injEq, Prod.mk.injEq] at h
      obtain ⟨hi, hr⟩ := h
      subst hi
      refine ⟨Nat.lt_succ_self m, hr.symm, hr ▸ hm, ?_⟩
      intro j hj hj'
      omega
    · rw [if_neg hm] at h
      obtain ⟨hi, hr, ho, hmax⟩ := ih i r h
      refine ⟨Nat.lt_succ_of_lt hi, hr, ho, ?_⟩
      intro j hj hj'
      rcases Nat.lt_succ_iff_lt_or_eq.mp hj' with hlt | heq
      · exact hmax j hj hlt
      · subst heq; exact Bool.eq_false_iff.mpr hm

lemma findOpenFrom_isSome (records : List Dict) :
    ∀ n i, i < n → isOpenDict (records.getD i []) = true →
      (findOpenFrom records n).isSome = true := by
  intro n
  induction n with
  | zero => intro i hi; omega
  | succ m ih =>
    intro i hi ho
    rw [findOpenFrom]
    by_cases hm : isOpenDict (records.getD m []) = true
    · rw [if_pos hm]; rfl
    · rw [if_neg hm]
      rcases Nat.lt_succ_iff_lt_or_eq.mp hi with hlt | heq
      · exact ih i hlt ho
      · subst heq; exact absurd ho hm

lemma getD_mem_of_lt {l : List Dict} {i : Nat} (h : i < l.length) :
    l.getD i [] ∈ l := by
  rw [List.getD_eq_getElem?_getD, List.getElem?_eq_getElem h]
  exact List.getElem_mem h

lemma openCount_eq_zero_iff (records : List Dict) :
    openCount records = 0 ↔ ∀ r ∈ records, isOpenDict r = false := by
  simp [openCount, List.countP_eq_zero]

lemma findOpenRecord_eq_none_of_zero {records : List Dict}
    (h : openCount records = 0) : findOpenRecord records = none := by
  rw [findOpenRecord, findOpenFrom_eq_none_iff]
  intro i hi
  exact (openCount_eq_zero_iff records).mp h _ (getD_mem_of_lt hi)

lemma two_le_openCount (records : List Dict) :
    ∀ i j, i < j → j < records.length →
      isOpenDict (records.getD i []) = true →
      isOpenDict (records.getD j []) = true → 2 ≤ openCount records := by
  induction records with
  | nil => intro i j _ hj; simp at hj
  | cons a t ih =>
    intro i j hij hj hi hjo
    match i, j with
    | 0, j + 1 =>
      have hjt : isOpenDict (t.getD j []) = true := by
        simpa [List.getD_cons_succ] using hjo
      have hmem : t.getD j [] ∈ t := getD_mem_of_lt (by simpa using hj)
      have hpos : 0 < List.countP isOpenDict t :=
        List.countP_pos.mpr ⟨t.getD j [], hmem, hjt⟩
      have ha : isOpenDict a = true := by simpa [List.getD_cons_zero] using hi
      simp only [openCount, List.countP_cons, ha, if_true]
      omega
    | i + 1, j + 1 =>
      have h2 : 2 ≤ openCount t := by
        refine ih i j (by omega) (by simpa using hj) ?_ ?_
        · simpa [List.getD_cons_succ] using hi
        · simpa [List.getD_cons_succ] using hjo
      simp only [openCount, List.countP_cons]
      simp only [openCount] at h2
      omega

lemma openCount_set_le {records : List Dict} {i : Nat} (a : Dict)
    (hi : i < records.length)
    (ho : isOpenDict (records.getD i []) = true) :
    openCount (records.set i a) ≤ openCount records := by
  have hset := List.countP_set isOpenDict records i a hi
  have hgd : records.getD i [] = records[i] := by
    rw [List.getD_eq_getElem?_getD, List.getElem?_eq_getElem hi]; rfl
  rw [hgd] at ho
  have hpos : 0 < List.countP isOpenDict records :=
    List.countP_pos.mpr ⟨records[i], List.getElem_mem hi, ho⟩
  simp only [openCount, hset, ho, if_true]
  by_cases hpa : isOpenDict a = true
  · rw [if_pos hpa]; omega
  · rw [if_neg hpa]; omega

/-- The characterization of the scan on an exactly-one-open store: if
index `i` is open and the count is one, the scan returns exactly
`(i, records[i])`. -/
lemma findOpenRecord_of_unique {records : List Dict} {i : Nat}
    (hi : i < records.length) (hcount : openCount records = 1)
    (ho : isOpenDict (records.getD i []) = true) :
    findOpenRecord records = some (i, records.getD i []) := by
  have hsome := findOpenFrom_isSome records records.length i hi ho
  rw [findOpenRecord]
  obtain ⟨⟨i0, r0⟩, h0⟩ := Option.isSome_iff_exists.mp hsome
  obtain ⟨hi0, hr0, ho0, hmax⟩ := findOpenFrom_eq_some records records.length i0 r0 h0
  have hle : i ≤ i0 := by
    by_contra hgt
    have := hmax i (by omega) hi
    rw [this] at ho
    exact Bool.false_ne_true ho
  have heq : i = i0 := by
    rcases Nat.lt_or_ge i i0 with hlt | hge
    · have h2 := two_le_openCount records i i0 hlt hi0 ho (by rw [← hr0]; exact ho0)
      omega
    · omega
  subst heq
  rw [h0, hr0]

/-! C7: behaviour of the open-session scan. -/

/-- C7: over any record sequence, the open-session scan returns the
unique open record when exactly one exists regardless of its position,
none when none exists, any result it returns is an open record with
nothing open above it, and — even when several records have empty
End Time by external corruption — it returns exactly the most recent
(highest-index) open record, never more than one. -/
theorem c7_findOpenSession (records : List Dict) :
    (openCount records = 0 → findOpenRecord records = none)
    ∧ (∀ i, i < records.length → openCount records = 1 →
        isOpenDict (records.getD i []) = true →
        findOpenRecord records = some (i, records.getD i []))
    ∧ (∀ i r, findOpenRecord records = some (i, r) →
        i < records.length ∧ r = records.getD i [] ∧ isOpenDict r = true ∧
          ∀ j, i < j → j < records.length → isOpenDict (records.getD j []) = false)
    ∧ (∀ i, i < records.length → isOpenDict (records.getD i []) = true →
        (∀ j, j < records.length → i < j → isOpenDict (records.getD j []) = false) →
        findOpenRecord records = some (i, records.getD i [])) := by
  refine ⟨fun h => findOpenRecord_eq_none_of_zero h, ?_, ?_, ?_⟩
  · intro i hi hcount ho
    exact findOpenRecord_of_unique hi hcount ho
  · intro i r h
    exact findOpenFrom_eq_some records records.length i r h
  · intro i hi ho hmax
    have hsome := findOpenFrom_isSome records records.length i hi ho
    obtain ⟨⟨i0, r0⟩, h0⟩ := Option.isSome_iff_exists.mp hsome
    obtain ⟨hi0, hr0, ho0, hmax0⟩ := findOpenFrom_eq_some records records.length i0 r0 h0
    have h1 : i ≤ i0 := by
      by_contra hgt
      have hc := hmax0 i (by omega) hi
      rw [hc] at ho
      exact Bool.false_ne_true ho
    have h2 : i0 ≤ i := by
      by_contra hgt
      have hc := hmax i0 hi0 (by omega)
      rw [← hr0] at hc
      rw [hc] at ho0
      exact Bool.false_ne_true ho0
    have heq : i = i0 := le_antisymm h1 h2
    subst heq
    rw [findOpenRecord, h0, hr0]

/-- Witness for C7 at concrete stores: with two open records by
external corruption (indices 0 and 1) and a closed one after them, the
scan returns exactly the most recent open one, at index 1; with a
fully closed store it finds none. -/
theorem c7_findOpenSession_witness :
    findOpenRecord [[(("End Time"), (""))], [(("End Time"), (""))],
        [(("End Time"), ("10:00:00"))]]
      = some (1, [(("End Time"), (""))])
    ∧ findOpenRecord [[(("End Time"), ("10:00:00"))]] = none := by
  constructor
  · exact (c7_findOpenSession [[(("End Time"), (""))], [(("End Time"), (""))],
        [(("End Time"), ("10:00:00"))]]).2.2.2
      1 (by decide) (by decide) (by decide)
  · exact (c7_findOpenSession [[(("End Time"), ("10:00:00"))]]).1 (by decide)

lemma getD_set_self {α : Type} (l : List α) (i : Nat) (a d : α) (h : i < l.length) :
    (l.set i a).getD i d = a := by
  rw [List.getD_eq_getElem?_getD, List.getElem?_set_self h]; rfl

lemma openCount_eq_zero_of_findOpenRecord_none {records : List Dict}
    (h : findOpenRecord records = none) : openCount records = 0 := by
  rw [openCount_eq_zero_iff]
  intro r hr
  obtain ⟨i, hi, hir⟩ := List.getElem_of_mem hr
  have h2 := (findOpenFrom_eq_none_iff records records.length).mp h i hi
  rw [List.getD_eq_getElem?_getD, List.getElem?_eq_getElem hi] at h2
  rw [← hir]
  exact h2

lemma prefix_map_pyLowerChar {k t : List Char} (h : k.isPrefixOf t = true) :
    (k.map pyLowerChar).isPrefixOf (t.map pyLowerChar) = true := by
  rw [List.isPrefixOf_iff_prefix] at h ⊢
  obtain ⟨u, hu⟩ := h
  exact ⟨u.map pyLowerChar, by rw [← hu, List.map_append]⟩

/-- A text that starts with an end keyword is never (after lower-casing
again, as the source re-lowers it) one of the report keywords, so the
report branch of the handler cannot fire on it. -/
lemma report_kw_not_end {t : String} (hk : startsWithAny t endKeywords = true) :
    (pyLower t) ∈ reportKeywords → False := by
  intro hm
  rw [startsWithAny, List.any_eq_true] at hk
  obtain ⟨k, hkmem, hpre⟩ := hk
  have h2 := prefix_map_pyLowerChar hpre
  have hdata : (pyLower t).data = t.data.map pyLowerChar := rfl
  rw [← hdata] at h2
  simp only [reportKeywords, List.mem_cons, List.not_mem_nil, or_false] at hm
  simp only [endKeywords, List.mem_cons, List.not_mem_nil, or_false] at hkmem
  rcases hkmem with hkm | hkm | hkm | hkm | hkm <;> subst hkm <;>
    rcases hm with hm | hm | hm <;> rw [hm] at h2 <;> revert h2 <;> decide

/-! C1: the single-open-session invariant is preserved by every inbound
message. -/

/-- C1: if at most one record of the store has an empty trimmed
End Time, then after processing any single inbound message (report,
end, start, or any error path) and applying the emitted persistence
instructions, still at most one record has an empty End Time: a start
row is appended only when the scan finds no open record, the end path
only rewrites the open record's row, and the report path emits no
mutation. -/
theorem c1_at_most_one_open (credsOk : Bool) (s : Sheet) (msg : String)
    (now : PyDateTime) (gpt : String → Except String String) (pg : String)
    (h : sheetOpenCount s ≤ 1) :
    sheetOpenCount (applyAll s (echo credsOk s msg now gpt pg).mutations) ≤ 1 := by
  simp only [echo]
  split
  · simpa [applyAll] using h
  split
  · split <;> simpa [applyAll] using h
  split
  · -- end-keyword branch: scan result drives the match
    split
    · simpa [applyAll] using h
    · rename_i idx rec heq
      obtain ⟨hidx, hrec, hopen, _⟩ :=
        findOpenFrom_eq_some (get_all_records s) (get_all_records s).length _ _ heq
      have hlen : idx < s.rows.length := by
        simpa [get_all_records, List.length_map] using hidx
      simp only [applyAll, List.foldl, applyMutation, Nat.add_sub_cancel]
      rw [getD_set_self _ _ _ _ hlen, List.set_set]
      simp only [sheetOpenCount, get_all_records, List.map_set]
      calc openCount ((s.rows.map (recordOfRow s.header)).set idx _)
          ≤ openCount (s.rows.map (recordOfRow s.header)) := by
            refine openCount_set_le _ ?_ ?_
            · simpa [get_all_records] using hidx
            · have h2 : isOpenDict ((get_all_records s).getD idx []) = true := by
                rw [← hrec]; exact hopen
              simpa [get_all_records] using h2
        _ ≤ 1 := by simpa [sheetOpenCount, get_all_records] using h
  · -- start side
    split
    · split <;> simpa [applyAll] using h
    · rename_i heq
      split
      · simpa [applyAll] using h
      · have h0 : openCount (get_all_records s) = 0 :=
          openCount_eq_zero_of_findOpenRecord_none heq
        simp only [applyAll, List.foldl, applyMutation]
        simp only [sheetOpenCount, get_all_records, List.map_append]
        rw [openCount, List.countP_append]
        have h1 : List.countP isOpenDict (List.map (recordOfRow s.header) s.rows) = 0 := by
          simpa [openCount, get_all_records] using h0
        rw [h1]
        simp only [List.map_cons, List.map_nil, List.countP_cons, List.countP_nil]
        split <;> omega

/-- Witness for C1: a store holding one open Gym record satisfies the
invariant, and after the message "end 10:30" it still does. -/
theorem c1_at_most_one_open_witness :
    sheetOpenCount
        (Sheet.mk stdHeader [[("2025-03-10"), ("Gym"), ("09:00:00"), (""), ("")]]) ≤ 1
    ∧ sheetOpenCount (applyAll
        (Sheet.mk stdHeader [[("2025-03-10"), ("Gym"), ("09:00:00"), (""), ("")]])
        (echo true
          (Sheet.mk stdHeader [[("2025-03-10"), ("Gym"), ("09:00:00"), (""), ("")]])
          ("end 10:30") ⟨⟨2025, 3, 10⟩, ⟨9, 5, 0⟩, none⟩
          (fun _ => Except.ok ("")) ("")).mutations) ≤ 1 :=
  ⟨by decide,
   c1_at_most_one_open true
     (Sheet.mk stdHeader [[("2025-03-10"), ("Gym"), ("09:00:00"), (""), ("")]])
     ("end 10:30") ⟨⟨2025, 3, 10⟩, ⟨9, 5, 0⟩, none⟩
     (fun _ => Except.ok ("")) ("") (by decide)⟩

/-! C10: end-keyword prefixes always take the end path. -/

/-- C10: an inbound message whose trimmed lower-cased text begins with
one of "end", "stop", "стоп", "конец", "finish" — also as a prefix of a
longer word — is handled by the end path: with no open session it gets
exactly the "nothing to end" reply and no mutation, and on any store it
never appends a row, so no activity whose name starts with an end
keyword can be started. -/
theorem c10_end_keyword_dispatch (s : Sheet) (msg : String) (now : PyDateTime)
    (gpt : String → Except String String) (pg : String)
    (hk : startsWithAny (pyStrip (pyLower (pyStrip msg))) endKeywords = true) :
    (sheetOpenCount s = 0 →
      echo true s msg now gpt pg =
        ⟨[], [("⚠️ Нет открытых активностей для завершения.")]⟩)
    ∧ (∀ cells, Mutation.appendRow cells ∉ (echo true s msg now gpt pg).mutations) := by
  have hnr : ((pyLower (pyStrip (pyLower (pyStrip msg)))) ∈ reportKeywords) → False :=
    report_kw_not_end hk
  constructor
  · intro h0
    have hnone : findOpenRecord (get_all_records s) = none :=
      findOpenRecord_eq_none_of_zero h0
    simp only [echo]
    rw [if_neg (by simp)]
    rw [if_neg hnr, if_pos hk, hnone]
  · intro cells
    simp only [echo]
    rw [if_neg (by simp)]
    rw [if_neg hnr, if_pos hk]
    split
    · simp
    · simp

/-- Witness for C10 at the message "ending credits" on an empty store:
the keyword test fires and the reply is "nothing to end" with no
mutation. -/
theorem c10_end_keyword_dispatch_witness :
    startsWithAny (pyStrip (pyLower (pyStrip ("ending credits")))) endKeywords = true
    ∧ echo true (Sheet.mk stdHeader []) ("ending credits")
        ⟨⟨2025, 3, 10⟩, ⟨9, 5, 0⟩, none⟩ (fun _ => Except.ok ("")) ("")
      = ⟨[], [("⚠️ Нет открытых активностей для завершения.")]⟩ :=
  ⟨by decide,
   (c10_end_keyword_dispatch (Sheet.mk stdHeader []) ("ending credits")
     ⟨⟨2025, 3, 10⟩, ⟨9, 5, 0⟩, none⟩ (fun _ => Except.ok ("")) ("")
     (by decide)).1 (by decide)⟩

/-! C4: empty-label handling on the start path. -/

/-- Counterexample to C4: on an empty store the message "09:00" — whose
resulting activity label is empty because its only token parses as a
clock time — is not rejected: the handler appends a row with an empty
activity label and replies with a start confirmation, not an error. -/
theorem c4_counterexample :
    echo true (Sheet.mk stdHeader []) ("09:00")
        ⟨⟨2025, 3, 10⟩, ⟨9, 5, 0⟩, none⟩ (fun _ => Except.ok ("")) ("")
      = ⟨[Mutation.appendRow [("2025-03-10"), (""), ("09:00:00"), (""), ("")]],
         [("🏁 Started \x27\x27 at 09:00")]⟩ := by
  decide

/-- C4 amended: on the start path with no open session the handler
rejects only a message with no tokens at all ("Пустое сообщение", no
mutation); an inbound text whose resulting label is empty because its
single token parses as a clock time is instead appended as a row with
an empty activity label, with a start confirmation reply. -/
theorem c4_amended_empty_label (s : Sheet) (msg : String) (now : PyDateTime)
    (gpt : String → Except String String) (pg : String)
    (hno : sheetOpenCount s = 0) :
    (pyStrip msg = ("") →
      echo true s msg now gpt pg = ⟨[], [("⚠️ Пустое сообщение.")]⟩)
    ∧ (∀ tok st, pySplit (pyStrip msg) = [tok] → parse_time tok now = some st →
        startsWithAny (pyStrip (pyLower (pyStrip msg))) endKeywords = false →
        ((pyLower (pyStrip (pyLower (pyStrip msg)))) ∈ reportKeywords → False) →
        echo true s msg now gpt pg =
          ⟨[Mutation.appendRow [formatYMD st.date, (""), formatHMS st.time, (""), ("")]],
           [("🏁 Started \x27\x27 at ") ++ formatHM st.time]⟩) := by
  have hnone : findOpenRecord (get_all_records s) = none :=
    findOpenRecord_eq_none_of_zero hno
  constructor
  · intro hempty
    simp only [echo, hempty]
    rw [if_neg (by simp)]
    rw [if_neg (by decide), if_neg (by decide), hnone]
    rfl
  · intro tok st hsplit hst hk hnr
    simp only [echo]
    rw [if_neg (by simp)]
    rw [if_neg hnr, if_neg (by rw [hk]; exact Bool.false_ne_true), hnone, hsplit]
    have hl : ([tok] : List String).getLastD ("") = tok := rfl
    rw [hl, hst]
    rfl

/-- Witness for C4's amended statement: the whitespace message "  " is
rejected with no mutation, and "09:00" at 09:05 appends a row with an
empty label. -/
theorem c4_amended_empty_label_witness :
    echo true (Sheet.mk stdHeader []) ("  ")
        ⟨⟨2025, 3, 10⟩, ⟨9, 5, 0⟩, none⟩ (fun _ => Except.ok ("")) ("")
      = ⟨[], [("⚠️ Пустое сообщение.")]⟩
    ∧ echo true (Sheet.mk stdHeader []) ("09:00")
        ⟨⟨2025, 3, 10⟩, ⟨9, 5, 0⟩, none⟩ (fun _ => Except.ok ("")) ("")
      = ⟨[Mutation.appendRow [("2025-03-10"), (""), ("09:00:00"), (""), ("")]],
         [("🏁 Started \x27\x27 at 09:00")]⟩ :=
  ⟨(c4_amended_empty_label (Sheet.mk stdHeader []) ("  ")
      ⟨⟨2025, 3, 10⟩, ⟨9, 5, 0⟩, none⟩ (fun _ => Except.ok ("")) ("")
      (by decide)).1 (by decide),
   (c4_amended_empty_label (Sheet.mk stdHeader []) ("09:00")
      ⟨⟨2025, 3, 10⟩, ⟨9, 5, 0⟩, none⟩ (fun _ => Except.ok ("")) ("")
      (by decide)).2 ("09:00") ⟨⟨2025, 3, 10⟩, ⟨9, 0, 0⟩, some TZname⟩
      (by decide) (by decide) (by decide) (by decide)⟩

/-! C5: failure handling of the daily report generator. -/

/-- C5 is a code bug: when the summarization call raises, the except
handler of generate_daily_report_with_gpt evaluates logging.error, but
report.py never imports logging, so the handler raises NameError and
the exception escapes the generator instead of being converted into a
user-visible error string. -/
theorem c5_report_error_propagates :
    generate_daily_report_with_gpt
        (Sheet.mk stdHeader [[("2025-03-10"), ("Gym"), ("09:00:00"), ("10:30:00"), ("1 h 30 min")]])
        ⟨⟨2025, 3, 10⟩, ⟨21, 0, 0⟩, none⟩ (fun _ => Except.error ("boom")) ("")
      = Except.error ("NameError: name \x27logging\x27 is not defined") := by
  rfl

/-! C9: the today block of the daily report. -/

/-- C9 is a code bug: report.py reads the record date under the key
"Date Activity" while bot.py writes and reads it under "Date", so with
the header the bot's own session logic requires, the lookup returns ""
for every record and the today block always reads "Нет активностей за
сегодня." — here a record dated today (as stored in its Date column)
does not appear in the block. -/
theorem c9_today_block_mismatch :
    generate_daily_report_with_gpt
        (Sheet.mk stdHeader [[("2025-03-10"), ("Gym"), ("09:00:00"), ("10:30:00"), ("1 h 30 min")]])
        ⟨⟨2025, 3, 10⟩, ⟨21, 0, 0⟩, none⟩ (fun _ => Except.ok ("fine")) ("")
      = Except.ok
          (("📅 Активности на сегодня:\nНет активностей за сегодня.\n\n📋 Обзор:\nfine")) := by
  rfl

/-! C8: parse_start_time_from_cells is total and always falls back to
the current instant or today's date, always in the fixed timezone. -/

/-- C8: for every pair of string (or missing) date and time cells,
parse_start_time_from_cells returns an instant carrying the fixed
timezone: an empty time cell yields the current instant, an
unparseable (or empty) date cell yields today's date, an unparseable
time cell yields the current instant, and being a total function it
fails on no input. -/
theorem c8_parse_stored_timestamp_total (dateCell timeCell : Option String)
    (now : PyDateTime) :
    (parse_start_time_from_cells dateCell timeCell now).tz = some TZname
    ∧ (pyStrip (timeCell.getD ("")) = ("") →
        parse_start_time_from_cells dateCell timeCell now = localNow now)
    ∧ ((pyStrip (dateCell.getD ("")) = ("") ∨
          tryParseDateCell (pyStrip (dateCell.getD (""))).data = none) →
        (parse_start_time_from_cells dateCell timeCell now).date = now.date)
    ∧ (pyStrip (timeCell.getD ("")) ≠ ("") →
        tryParseTimeCell (pyStrip (timeCell.getD (""))).data = none →
        parse_start_time_from_cells dateCell timeCell now = localNow now) := by
  refine ⟨?_, ?_, ?_, ?_⟩
  · simp only [parse_start_time_from_cells]
    split
    · rfl
    · split <;> rfl
  · intro h
    simp only [parse_start_time_from_cells]
    rw [if_pos h]
  · intro h
    simp only [parse_start_time_from_cells]
    split
    · rfl
    · split
      · rcases h with h | h
        · rw [if_pos h]
          rfl
        · by_cases he : pyStrip (dateCell.getD ("")) = ("")
          · rw [if_pos he]
            rfl
          · rw [if_neg he, h]
            rfl
      · rfl
  · intro hne hnone
    simp only [parse_start_time_from_cells]
    rw [if_neg hne, hnone]

/-- Witness for C8 at concrete inputs: a missing date with an
unparseable time falls back to the current instant, an unparseable date
with a good time keeps today's date, an empty time cell yields the
current instant, and the result always carries Europe/Warsaw. -/
theorem c8_parse_stored_timestamp_total_witness :
    (parse_start_time_from_cells (some ("2025-03-10")) (some ("09:00:00"))
        ⟨⟨2025, 3, 10⟩, ⟨9, 5, 0⟩, none⟩).tz = some TZname
    ∧ parse_start_time_from_cells (some ("2025-03-10")) (some ("   "))
        ⟨⟨2025, 3, 10⟩, ⟨9, 5, 0⟩, none⟩
      = localNow ⟨⟨2025, 3, 10⟩, ⟨9, 5, 0⟩, none⟩
    ∧ (parse_start_time_from_cells (some ("not-a-date")) (some ("10:30"))
        ⟨⟨2025, 3, 10⟩, ⟨9, 5, 0⟩, none⟩).date = ⟨2025, 3, 10⟩
    ∧ parse_start_time_from_cells none (some ("25:99"))
        ⟨⟨2025, 3, 10⟩, ⟨9, 5, 0⟩, none⟩
      = localNow ⟨⟨2025, 3, 10⟩, ⟨9, 5, 0⟩, none⟩ :=
  ⟨(c8_parse_stored_timestamp_total (some ("2025-03-10")) (some ("09:00:00"))
      ⟨⟨2025, 3, 10⟩, ⟨9, 5, 0⟩, none⟩).1,
   (c8_parse_stored_timestamp_total (some ("2025-03-10")) (some ("   "))
      ⟨⟨2025, 3, 10⟩, ⟨9, 5, 0⟩, none⟩).2.1 (by decide),
   (c8_parse_stored_timestamp_total (some ("not-a-date")) (some ("10:30"))
      ⟨⟨2025, 3, 10⟩, ⟨9, 5, 0⟩, none⟩).2.2.1 (Or.inr (by decide)),
   (c8_parse_stored_timestamp_total none (some ("25:99"))
      ⟨⟨2025, 3, 10⟩, ⟨9, 5, 0⟩, none⟩).2.2.2 (by decide) (by decide)⟩

/-! Round-trip lemmas: the strings the bot writes with strftime parse
back to the same date and time values. -/

/-- Time values datetime accepts. -/
def validTime (t : PyTime) : Prop := t.hour ≤ 23 ∧ t.minute ≤ 59 ∧ t.second ≤ 59

/-- Date values datetime accepts, restricted to four-digit years so
that strftime("%Y") is the plain zero-padded four-digit form. -/
def validDate (d : PyDate) : Prop :=
  1000 ≤ d.year ∧ d.year ≤ 9999 ∧ 1 ≤ d.month ∧ d.month ≤ 12 ∧
    1 ≤ d.day ∧ d.day ≤ daysInMonth d.year d.month

instance (t : PyTime) : Decidable (validTime t) := by unfold validTime; infer_instance

instance (d : PyDate) : Decidable (validDate d) := by unfold validDate; infer_instance

lemma digitChar_spec {k : Nat} (hk : k < 10) :
    (digitChar k).isDigit = true ∧ isPySpace (digitChar k) = false ∧
      digitChar k ≠ ':' ∧ digitChar k ≠ '-' ∧ ('.' == digitChar k) = false ∧
      (digitChar k).toNat = 48 + k := by
  interval_cases k <;> exact ⟨rfl, rfl, by decide, by decide, rfl, rfl⟩

lemma mem_pad2 {n : Nat} (hn : n ≤ 99) {x : Char} (hx : x ∈ pad2 n) :
    ∃ k, k < 10 ∧ x = digitChar k := by
  rcases hx with _ | ⟨_, hx⟩
  · exact ⟨n / 10, by omega, rfl⟩
  · rcases hx with _ | ⟨_, hx⟩
    · exact ⟨n % 10, by omega, rfl⟩
    · cases hx

lemma mem_pad4 {n : Nat} (hn : n ≤ 9999) {x : Char} (hx : x ∈ pad4 n) :
    ∃ k, k < 10 ∧ x = digitChar k := by
  rcases hx with _ | ⟨_, hx⟩
  · exact ⟨n / 1000, by omega, rfl⟩
  rcases hx with _ | ⟨_, hx⟩
  · exact ⟨n / 100 % 10, by omega, rfl⟩
  rcases hx with _ | ⟨_, hx⟩
  · exact ⟨n / 10 % 10, by omega, rfl⟩
  rcases hx with _ | ⟨_, hx⟩
  · exact ⟨n % 10, by omega, rfl⟩
  · cases hx

lemma digitsToNat_pad2 {n : Nat} (hn : n ≤ 99) : digitsToNat (pad2 n) = n := by
  have h1 := (digitChar_spec (k := n / 10) (by omega)).2.2.2.2.2
  have h2 := (digitChar_spec (k := n % 10) (by omega)).2.2.2.2.2
  simp only [digitsToNat, pad2, List.foldl, h1, h2]
  omega

lemma digitsToNat_pad4 {n : Nat} (hn : n ≤ 9999) : digitsToNat (pad4 n) = n := by
  have h1 := (digitChar_spec (k := n / 1000) (by omega)).2.2.2.2.2
  have h2 := (digitChar_spec (k := n / 100 % 10) (by omega)).2.2.2.2.2
  have h3 := (digitChar_spec (k := n / 10 % 10) (by omega)).2.2.2.2.2
  have h4 := (digitChar_spec (k := n % 10) (by omega)).2.2.2.2.2
  simp only [digitsToNat, pad4, List.foldl, h1, h2, h3, h4]
  omega

lemma pad2_all_digit {n : Nat} (hn : n ≤ 99) : (pad2 n).all Char.isDigit = true := by
  rw [List.all_eq_true]
  intro x hx
  obtain ⟨k, hk, rfl⟩ := mem_pad2 hn hx
  exact (digitChar_spec hk).1

lemma pad4_all_digit {n : Nat} (hn : n ≤ 9999) : (pad4 n).all Char.isDigit = true := by
  rw [List.all_eq_true]
  intro x hx
  obtain ⟨k, hk, rfl⟩ := mem_pad4 hn hx
  exact (digitChar_spec hk).1

lemma parseNum2_pad2 {n hi : Nat} (hn : n ≤ hi) (hhi : hi ≤ 99) :
    parseNum2 (pad2 n) hi = some n := by
  rw [parseNum2, if_pos ⟨by simp [pad2], by simp [pad2], pad2_all_digit (by omega)⟩,
    digitsToNat_pad2 (by omega), if_pos hn]

lemma splitOnChar_no_mem {c : Char} {xs : List Char} (h : ∀ x ∈ xs, x ≠ c) :
    splitOnChar c xs = [xs] := by
  induction xs with
  | nil => rfl
  | cons a t ih =>
    rw [splitOnChar, if_neg (h a (List.mem_cons_self a t)),
      ih (fun x hx => h x (List.mem_cons_of_mem a hx))]

lemma splitOnChar_append {c : Char} {xs ys : List Char} (h : ∀ x ∈ xs, x ≠ c) :
    splitOnChar c (xs ++ c :: ys) = xs :: splitOnChar c ys := by
  induction xs with
  | nil =>
    rw [List.nil_append, splitOnChar, if_pos rfl]
  | cons a t ih =>
    rw [List.cons_append, splitOnChar, if_neg (h a (List.mem_cons_self a t)),
      ih (fun x hx => h x (List.mem_cons_of_mem a hx))]

lemma dropWhile_all_false {p : Char → Bool} {l : List Char}
    (h : ∀ x ∈ l, p x = false) : l.dropWhile p = l := by
  cases l with
  | nil => rfl
  | cons a t =>
    rw [List.dropWhile_cons, h a (List.mem_cons_self a t)]
    simp

lemma stripChars_of_no_space {l : List Char}
    (h : ∀ x ∈ l, isPySpace x = false) : stripChars l = l := by
  rw [stripChars, dropWhile_all_false h,
    dropWhile_all_false (fun x hx => h x (List.mem_reverse.mp hx)), List.reverse_reverse]

lemma mem_dropWhile_of_false {p : Char → Bool} {l : List Char} {c : Char}
    (hc : c ∈ l) (hp : p c = false) : c ∈ l.dropWhile p := by
  induction l with
  | nil => cases hc
  | cons a t ih =>
    rw [List.dropWhile_cons]
    by_cases ha : p a = true
    · rw [ha]
      simp only [if_true]
      rcases List.mem_cons.mp hc with rfl | hct
      · rw [hp] at ha; cases ha
      · exact ih hct
    · rw [Bool.not_eq_true] at ha
      rw [ha]
      simpa using hc

lemma stripChars_ne_nil {l : List Char} {c : Char} (hc : c ∈ l)
    (hp : isPySpace c = false) : stripChars l ≠ [] := by
  intro h
  have h1 : c ∈ stripChars l := by
    rw [stripChars]
    rw [List.mem_reverse]
    exact mem_dropWhile_of_false (List.mem_reverse.mpr (mem_dropWhile_of_false hc hp)) hp
  rw [h] at h1
  cases h1

lemma colon_mem_formatHMS (t : PyTime) : ':' ∈ (formatHMS t).data := by
  show ':' ∈ pad2 t.hour ++ ':' :: (pad2 t.minute ++ ':' :: pad2 t.second)
  exact List.mem_append_right _ (List.mem_cons_self _ _)

/-- The written End Time cell "HH:MM:SS" never strips to the empty
string, whatever the numeric components are. -/
lemma pyStrip_formatHMS_ne_empty (t : PyTime) : pyStrip (formatHMS t) ≠ ("") := by
  intro h
  have hd := congrArg String.data h
  exact stripChars_ne_nil (colon_mem_formatHMS t) (by decide) hd

lemma mem_formatHMS_data {t : PyTime} (ht : validTime t) {x : Char}
    (hx : x ∈ (formatHMS t).data) : x = ':' ∨ ∃ k, k < 10 ∧ x = digitChar k := by
  obtain ⟨h1, h2, h3⟩ := ht
  have hx' : x ∈ pad2 t.hour ++ ':' :: (pad2 t.minute ++ ':' :: pad2 t.second) := hx
  rcases List.mem_append.mp hx' with hh | hh
  · exact Or.inr (mem_pad2 (by omega) hh)
  rcases List.mem_cons.mp hh with rfl | hh
  · exact Or.inl rfl
  rcases List.mem_append.mp hh with hh | hh
  · exact Or.inr (mem_pad2 (by omega) hh)
  rcases List.mem_cons.mp hh with rfl | hh
  · exact Or.inl rfl
  · exact Or.inr (mem_pad2 (by omega) hh)

lemma mem_formatYMD_data {d : PyDate} (hd : validDate d) {x : Char}
    (hx : x ∈ (formatYMD d).data) : x = '-' ∨ ∃ k, k < 10 ∧ x = digitChar k := by
  obtain ⟨h1, h2, h3, h4, h5, h6⟩ := hd
  have hx' : x ∈ pad4 d.year ++ '-' :: (pad2 d.month ++ '-' :: pad2 d.day) := hx
  have hday : d.day ≤ 99 := by
    have : daysInMonth d.year d.month ≤ 31 := by
      rw [daysInMonth]
      split
      · split <;> omega
      · split <;> omega
    omega
  rcases List.mem_append.mp hx' with hh | hh
  · exact Or.inr (mem_pad4 (by omega) hh)
  rcases List.mem_cons.mp hh with rfl | hh
  · exact Or.inl rfl
  rcases List.mem_append.mp hh with hh | hh
  · exact Or.inr (mem_pad2 (by omega) hh)
  rcases List.mem_cons.mp hh with rfl | hh
  · exact Or.inl rfl
  · exact Or.inr (mem_pad2 (by omega) hh)

lemma pyStrip_formatHMS {t : PyTime} (ht : validTime t) :
    pyStrip (formatHMS t) = formatHMS t := by
  have : stripChars (formatHMS t).data = (formatHMS t).data := by
    refine stripChars_of_no_space (fun x hx => ?_)
    rcases mem_formatHMS_data ht hx with rfl | ⟨k, hk, rfl⟩
    · rfl
    · exact (digitChar_spec hk).2.1
  rw [pyStrip, this]

lemma pyStrip_formatYMD {d : PyDate} (hd : validDate d) :
    pyStrip (formatYMD d) = formatYMD d := by
  have : stripChars (formatYMD d).data = (formatYMD d).data := by
    refine stripChars_of_no_space (fun x hx => ?_)
    rcases mem_formatYMD_data hd hx with rfl | ⟨k, hk, rfl⟩
    · rfl
    · exact (digitChar_spec hk).2.1
  rw [pyStrip, this]

lemma formatYMD_ne_empty (d : PyDate) : formatYMD d ≠ ("") := by
  intro h
  have hd := congrArg String.data h
  exact List.cons_ne_nil _ _ hd

lemma pad2_ne_colon {n : Nat} (hn : n ≤ 99) : ∀ x ∈ pad2 n, x ≠ ':' := by
  intro x hx
  obtain ⟨k, hk, rfl⟩ := mem_pad2 hn hx
  exact (digitChar_spec hk).2.2.1

lemma pad2_ne_dash {n : Nat} (hn : n ≤ 99) : ∀ x ∈ pad2 n, x ≠ '-' := by
  intro x hx
  obtain ⟨k, hk, rfl⟩ := mem_pad2 hn hx
  exact (digitChar_spec hk).2.2.2.1

lemma pad4_ne_dash {n : Nat} (hn : n ≤ 9999) : ∀ x ∈ pad4 n, x ≠ '-' := by
  intro x hx
  obtain ⟨k, hk, rfl⟩ := mem_pad4 hn hx
  exact (digitChar_spec hk).2.2.2.1

lemma splitColon_formatHMS {t : PyTime} (ht : validTime t) :
    splitOnChar ':' (formatHMS t).data = [pad2 t.hour, pad2 t.minute, pad2 t.second] := by
  obtain ⟨h1, h2, h3⟩ := ht
  show splitOnChar ':' (pad2 t.hour ++ ':' :: (pad2 t.minute ++ ':' :: pad2 t.second)) = _
  rw [splitOnChar_append (pad2_ne_colon (by omega)),
    splitOnChar_append (pad2_ne_colon (by omega)),
    splitOnChar_no_mem (pad2_ne_colon (by omega))]

lemma splitDash_formatYMD {d : PyDate} (hd : validDate d) :
    splitOnChar '-' (formatYMD d).data = [pad4 d.year, pad2 d.month, pad2 d.day] := by
  obtain ⟨h1, h2, h3, h4, h5, h6⟩ := hd
  have hday : d.day ≤ 99 := by
    have : daysInMonth d.year d.month ≤ 31 := by
      rw [daysInMonth]
      split
      · split <;> omega
      · split <;> omega
    omega
  show splitOnChar '-' (pad4 d.year ++ '-' :: (pad2 d.month ++ '-' :: pad2 d.day)) = _
  rw [splitOnChar_append (pad4_ne_dash (by omega)),
    splitOnChar_append (pad2_ne_dash (by omega)),
    splitOnChar_no_mem (pad2_ne_dash (by omega))]

lemma parseHMS_formatHMS {t : PyTime} (ht : validTime t) :
    parseHMS (formatHMS t).data = some t := by
  obtain ⟨h1, h2, h3⟩ := ht
  rw [parseHMS, splitColon_formatHMS ⟨h1, h2, h3⟩]
  simp only [parseNum2_pad2 h1 (by omega), parseNum2_pad2 h2 (by omega),
    parseNum2_pad2 h3 (by omega)]

lemma parseHM_formatHMS (t : PyTime) (ht : validTime t) :
    parseHM (formatHMS t).data = none := by
  rw [parseHM, splitColon_formatHMS ht]

lemma contains_dot_formatHMS {t : PyTime} (ht : validTime t) :
    containsDot (formatHMS t).data = false := by
  rw [containsDot, List.contains_eq_any_beq, List.any_eq_false]
  intro x hx
  rcases mem_formatHMS_data ht hx with rfl | ⟨k, hk, rfl⟩
  · decide
  · rw [(digitChar_spec hk).2.2.2.2.1]
    exact Bool.false_ne_true

lemma pyIsDigit_formatHMS (t : PyTime) : pyIsDigit (formatHMS t).data = false := by
  rw [pyIsDigit]
  have : (formatHMS t).data.all Char.isDigit = false :=
    List.all_eq_false.mpr ⟨':', colon_mem_formatHMS t, by decide⟩
  rw [this, Bool.and_false]

lemma fractionalTime_formatHMS {t : PyTime} (ht : validTime t) :
    fractionalTime (formatHMS t).data = none := by
  rw [fractionalTime, contains_dot_formatHMS ht, pyIsDigit_formatHMS, Bool.or_self]
  rw [if_neg (by exact Bool.false_ne_true)]

lemma tryParseTimeCell_formatHMS {t : PyTime} (ht : validTime t) :
    tryParseTimeCell (formatHMS t).data = some t := by
  rw [tryParseTimeCell, fractionalTime_formatHMS ht, parseHM_formatHMS t ht,
    parseHMS_formatHMS ht]

lemma parseYMD_formatYMD {d : PyDate} (hd : validDate d) :
    parseYMD (formatYMD d).data = some d := by
  obtain ⟨h1, h2, h3, h4, h5, h6⟩ := hd
  have hday : d.day ≤ 31 := by
    have : daysInMonth d.year d.month ≤ 31 := by
      rw [daysInMonth]
      split
      · split <;> omega
      · split <;> omega
    omega
  rw [parseYMD, splitDash_formatYMD ⟨h1, h2, h3, h4, h5, h6⟩]
  simp only [parseNum2_pad2 h4 (by omega), parseNum2_pad2 hday (by omega)]
  rw [if_pos ⟨by simp [pad4], pad4_all_digit (by omega)⟩]
  rw [digitsToNat_pad4 (by omega)]
  rw [if_pos ⟨h3, h5, h6⟩]

lemma tryParseDateCell_formatYMD {d : PyDate} (hd : validDate d) :
    tryParseDateCell (formatYMD d).data = some d := by
  rw [tryParseDateCell, parseYMD_formatYMD hd]

lemma formatHMS_ne_empty (t : PyTime) : formatHMS t ≠ ("") := by
  intro h
  have hd : (formatHMS t).data = [] := congrArg String.data h
  have hm := colon_mem_formatHMS t
  rw [hd] at hm
  cases hm

/-- The stored cells written by the start path parse back to exactly
the instant they were formatted from, in the fixed timezone. -/
lemma parse_cells_roundtrip {d : PyDate} {t : PyTime} (hd : validDate d)
    (ht : validTime t) (now : PyDateTime) :
    parse_start_time_from_cells (some (formatYMD d)) (some (formatHMS t)) now
      = ⟨d, t, some TZname⟩ := by
  simp only [parse_start_time_from_cells, Option.getD_some]
  rw [pyStrip_formatYMD hd, pyStrip_formatHMS ht]
  rw [if_neg (formatHMS_ne_empty t), tryParseTimeCell_formatHMS ht]
  rw [if_neg (formatYMD_ne_empty d), tryParseDateCell_formatYMD hd]

/-- Difference of two instants on the same date is the difference of
their times of day (the rata-die day part cancels). -/
lemma toEpoch_sub_same_date (dte : PyDate) (t1 t2 : PyTime) (z1 z2 : Option String) :
    (PyDateTime.mk dte t1 z1).toEpochSeconds - (PyDateTime.mk dte t2 z2).toEpochSeconds
      = t1.secondsOfDay - t2.secondsOfDay := by
  simp only [PyDateTime.toEpochSeconds]
  ring

/-! C3: the concrete end scenario of the spec. -/

/-- C3: with exactly one open record — for "Gym", dated today, started
at "09:00:00" — at any index of the store, the message "end 10:30"
produces exactly the two cell updates on that record's sheet row
(index + 2): column 4 becomes "10:30:00" and column 5 becomes
"1 h 30 min", and the single reply confirms the end with duration
"1 h 30 min". -/
theorem c3_end_custom_time (rows : List (List String)) (idx : Nat)
    (nd : PyDate) (nt : PyTime) (gpt : String → Except String String) (pg : String)
    (hvd : validDate nd)
    (hidx : idx < (get_all_records (Sheet.mk stdHeader rows)).length)
    (hcount : sheetOpenCount (Sheet.mk stdHeader rows) = 1)
    (hopen : isOpenDict ((get_all_records (Sheet.mk stdHeader rows)).getD idx []) = true)
    (hdate : pyGetD ((get_all_records (Sheet.mk stdHeader rows)).getD idx []) ("Date") ("")
        = formatYMD nd)
    (hstart : pyGetD ((get_all_records (Sheet.mk stdHeader rows)).getD idx [])
        ("Start Time") ("") = ("09:00:00"))
    (hact : pyGetRepr ((get_all_records (Sheet.mk stdHeader rows)).getD idx []) ("Activity")
        = ("Gym")) :
    echo true (Sheet.mk stdHeader rows) ("end 10:30") ⟨nd, nt, none⟩ gpt pg
      = ⟨[Mutation.updateCell (idx + 2) 4 ("10:30:00"),
          Mutation.updateCell (idx + 2) 5 ("1 h 30 min")],
         [("✅ Ended \x27Gym\x27 (1 h 30 min)")]⟩ := by
  have hfind : findOpenRecord (get_all_records (Sheet.mk stdHeader rows))
      = some (idx, (get_all_records (Sheet.mk stdHeader rows)).getD idx []) :=
    findOpenRecord_of_unique hidx hcount hopen
  have hcells : parse_start_time_from_cells (some (formatYMD nd)) (some ("09:00:00"))
      (⟨nd, nt, none⟩ : PyDateTime) = ⟨nd, ⟨9, 0, 0⟩, some TZname⟩ := by
    have h0900 : ("09:00:00") = formatHMS ⟨9, 0, 0⟩ := by decide
    rw [h0900]
    exact parse_cells_roundtrip hvd (by decide) _
  have hdur : Int.tdiv
      ((PyDateTime.mk nd ⟨10, 30, 0⟩ (some TZname)).toEpochSeconds
        - (PyDateTime.mk nd ⟨9, 0, 0⟩ (some TZname)).toEpochSeconds) 60 = 90 := by
    rw [toEpoch_sub_same_date]
    decide
  simp only [echo]
  rw [if_neg (by simp)]
  rw [if_neg (show ¬ (pyLower (pyStrip (pyLower (pyStrip ("end 10:30"))))) ∈ reportKeywords
       from by decide)]
  rw [if_pos (show startsWithAny (pyStrip (pyLower (pyStrip ("end 10:30")))) endKeywords = true
       from by decide)]
  rw [hfind]
  dsimp only
  have hps : pySplit (pyStrip ("end 10:30")) = [("end"), ("10:30")] := by decide
  rw [hps]
  rw [if_pos (show 2 ≤ ([("end"), ("10:30")] : List String).length from by decide)]
  have hgl : (([("end"), ("10:30")] : List String).getLastD ("")) = ("10:30") := rfl
  rw [hgl]
  have hpt : parse_time ("10:30") (⟨nd, nt, none⟩ : PyDateTime)
      = some ⟨nd, ⟨10, 30, 0⟩, some TZname⟩ := rfl
  rw [hpt]
  dsimp only
  rw [hdate, hstart, hcells]
  dsimp only
  rw [hdur, hact]
  rfl

/-- Witness for C3 at a store with one closed and one open record, the
open Gym record sitting at index 1 (sheet row 3). -/
theorem c3_end_custom_time_witness :
    echo true (Sheet.mk stdHeader
        [[("2025-03-09"), ("Run"), ("08:00:00"), ("08:30:00"), ("30 min")],
         [("2025-03-10"), ("Gym"), ("09:00:00"), (""), ("")]])
        ("end 10:30") ⟨⟨2025, 3, 10⟩, ⟨10, 35, 0⟩, none⟩ (fun _ => Except.ok ("")) ("")
      = ⟨[Mutation.updateCell 3 4 ("10:30:00"),
          Mutation.updateCell 3 5 ("1 h 30 min")],
         [("✅ Ended \x27Gym\x27 (1 h 30 min)")]⟩ :=
  c3_end_custom_time
    [[("2025-03-09"), ("Run"), ("08:00:00"), ("08:30:00"), ("30 min")],
     [("2025-03-10"), ("Gym"), ("09:00:00"), (""), ("")]]
    1 ⟨2025, 3, 10⟩ ⟨10, 35, 0⟩ (fun _ => Except.ok ("")) ("")
    (by decide) (by decide) (by decide) (by decide) (by decide) (by decide) (by decide)

/-! C2: the round trip start-then-end.  The code truncates the minute
difference toward zero (int(total_seconds/60)) instead of rounding to
the nearest integer. -/

/-- Counterexample to C2 as stated: starting "gym" at 09:00:00 and
ending implicitly at 09:00:50 writes duration "0 min"
(int(50/60) = 0), while formatDuration(round((end-start) in minutes))
= formatDuration(round(50/60)) = "1 min". -/
theorem c2_counterexample :
    (echo true (Sheet.mk stdHeader []) ("gym") ⟨⟨2025, 3, 10⟩, ⟨9, 0, 0⟩, none⟩
        (fun _ => Except.ok ("")) ("")).mutations
      = [Mutation.appendRow [("2025-03-10"), ("Gym"), ("09:00:00"), (""), ("")]]
    ∧ (echo true (Sheet.mk stdHeader [[("2025-03-10"), ("Gym"), ("09:00:00"), (""), ("")]])
        ("end") ⟨⟨2025, 3, 10⟩, ⟨9, 0, 50⟩, none⟩ (fun _ => Except.ok ("")) ("")).mutations
      = [Mutation.updateCell 2 4 ("09:00:50"), Mutation.updateCell 2 5 ("0 min")]
    ∧ (((PyDateTime.mk ⟨2025, 3, 10⟩ ⟨9, 0, 50⟩ (some TZname)).toEpochSeconds
          - (PyDateTime.mk ⟨2025, 3, 10⟩ ⟨9, 0, 0⟩ (some TZname)).toEpochSeconds) = (50 : ℤ))
    ∧ format_duration (round ((50 : ℚ) / 60)) = ("1 min")
    ∧ (("0 min") : String) ≠ ("1 min") := by
  refine ⟨by decide, by decide, ?_, ?_, by decide⟩
  · rw [toEpoch_sub_same_date]
    decide
  · have h : round ((50 : ℚ) / 60) = 1 := by
      rw [round_eq]
      rw [show (50 : ℚ) / 60 + 1 / 2 = 4 / 3 by norm_num]
      norm_num [Int.floor_eq_iff]
    rw [h]
    decide

lemma getD_append_length {α : Type} (l : List α) (x : α) (d : α) :
    (l ++ [x]).getD l.length d = x := by
  rw [List.getD_eq_getElem?_getD, List.getElem?_concat_length]
  rfl

lemma set_append_length {α : Type} (l : List α) (x y : α) :
    (l ++ [x]).set l.length y = l ++ [y] := by
  rw [List.set_append, if_neg (lt_irrefl _), Nat.sub_self]
  rfl

lemma findOpenRecord_append_open (records : List Dict) (r : Dict)
    (hr : isOpenDict r = true) :
    findOpenRecord (records ++ [r]) = some (records.length, r) := by
  have hlen : (records ++ [r]).length = records.length + 1 := by
    rw [List.length_append]
    rfl
  rw [findOpenRecord, hlen, findOpenFrom, getD_append_length, if_pos hr]

lemma stdRecord_date (c1 c2 c3 c4 c5 : String) :
    pyGetD (recordOfRow stdHeader [c1, c2, c3, c4, c5]) ("Date") ("") = c1 := rfl

lemma stdRecord_start_time (c1 c2 c3 c4 c5 : String) :
    pyGetD (recordOfRow stdHeader [c1, c2, c3, c4, c5]) ("Start Time") ("") = c3 := rfl

lemma stdRecord_open (c1 c2 c3 c5 : String) :
    isOpenDict (recordOfRow stdHeader [c1, c2, c3, (""), c5]) = true := rfl

lemma stdRecord_closed (c1 c2 c3 c5 : String) (t : PyTime) :
    isOpenDict (recordOfRow stdHeader [c1, c2, c3, formatHMS t, c5]) = false := by
  have hget : pyGetD (recordOfRow stdHeader [c1, c2, c3, formatHMS t, c5])
      ("End Time") ("") = formatHMS t := rfl
  rw [isOpenDict, hget]
  exact beq_eq_false_iff_ne.mpr (pyStrip_formatHMS_ne_empty t)

/-- The end instant the end path resolves: "now" when the message has
no parsable trailing clock token, else the custom clock time combined
with the start record's date. -/
def endInstant (d : PyDate) (custom : Option PyTime) (now2 : PyDateTime) : PyDateTime :=
  match custom with
  | none => localNow now2
  | some ct => PyDateTime.mk d ct (some TZname)

/-- C2 amended: appending a start record (with date `d`, label `a`,
start time `t`) on a store with no open session and then ending it with
an end message — carrying either no parsable trailing clock token
(`custom = none`, end instant "now") or a custom one (`custom = some
ct`, end instant combined with the record's date) — writes
`duration = formatDuration(int((end - start).total_seconds() / 60))`,
the minute difference truncated toward zero rather than rounded, into
column 5 of the appended row, writes the end time into column 4, and
re-scanning the store afterwards finds no open session. -/
theorem c2_round_trip_truncated (rows : List (List String)) (startMsg : String)
    (now1 now2 : PyDateTime) (gpt : String → Except String String) (pg : String)
    (d : PyDate) (t : PyTime) (a : String) (custom : Option PyTime) (endMsg : String)
    (hvd : validDate d) (hvt : validTime t)
    (hno : sheetOpenCount (Sheet.mk stdHeader rows) = 0)
    (hstart : (echo true (Sheet.mk stdHeader rows) startMsg now1 gpt pg).mutations
        = [Mutation.appendRow [formatYMD d, a, formatHMS t, (""), ("")]])
    (htext : startsWithAny (pyStrip (pyLower (pyStrip endMsg))) endKeywords = true)
    (hcustom : (if 2 ≤ (pySplit (pyStrip endMsg)).length
        then parse_time ((pySplit (pyStrip endMsg)).getLastD ("")) now2 else none)
      = custom.map (fun ct => PyDateTime.mk (localNow now2).date ct (some TZname))) :
    (echo true (applyAll (Sheet.mk stdHeader rows)
          (echo true (Sheet.mk stdHeader rows) startMsg now1 gpt pg).mutations)
        endMsg now2 gpt pg).mutations
      = [Mutation.updateCell (rows.length + 2) 4
          (formatHMS (endInstant d custom now2).time),
         Mutation.updateCell (rows.length + 2) 5
          (format_duration (Int.tdiv
            ((endInstant d custom now2).toEpochSeconds
              - (PyDateTime.mk d t (some TZname)).toEpochSeconds) 60))]
    ∧ findOpenRecord (get_all_records (applyAll
        (applyAll (Sheet.mk stdHeader rows)
          (echo true (Sheet.mk stdHeader rows) startMsg now1 gpt pg).mutations)
        (echo true (applyAll (Sheet.mk stdHeader rows)
            (echo true (Sheet.mk stdHeader rows) startMsg now1 gpt pg).mutations)
          endMsg now2 gpt pg).mutations)) = none := by
  have hreport := report_kw_not_end htext
  have hS1 : applyAll (Sheet.mk stdHeader rows)
      (echo true (Sheet.mk stdHeader rows) startMsg now1 gpt pg).mutations
      = Sheet.mk stdHeader (rows ++ [[formatYMD d, a, formatHMS t, (""), ("")]]) := by
    rw [hstart]
    rfl
  have hfind1 : findOpenRecord (get_all_records
        (Sheet.mk stdHeader (rows ++ [[formatYMD d, a, formatHMS t, (""), ("")]])))
      = some (rows.length,
          recordOfRow stdHeader [formatYMD d, a, formatHMS t, (""), ("")]) := by
    show findOpenRecord ((rows ++ [[formatYMD d, a, formatHMS t, (""), ("")]]).map
      (recordOfRow stdHeader)) = _
    rw [List.map_append, List.map_cons, List.map_nil]
    have := findOpenRecord_append_open (rows.map (recordOfRow stdHeader))
      (recordOfRow stdHeader [formatYMD d, a, formatHMS t, (""), ("")])
      (stdRecord_open _ _ _ _)
    rw [List.length_map] at this
    exact this
  rw [hS1]
  have hres : echo true
      (Sheet.mk stdHeader (rows ++ [[formatYMD d, a, formatHMS t, (""), ("")]]))
      endMsg now2 gpt pg
      = ⟨[Mutation.updateCell (rows.length + 2) 4
            (formatHMS (endInstant d custom now2).time),
          Mutation.updateCell (rows.length + 2) 5
            (format_duration (Int.tdiv
              ((endInstant d custom now2).toEpochSeconds
                - (PyDateTime.mk d t (some TZname)).toEpochSeconds) 60))],
         [("✅ Ended \x27") ++ a ++ ("\x27 (")
            ++ format_duration (Int.tdiv
              ((endInstant d custom now2).toEpochSeconds
                - (PyDateTime.mk d t (some TZname)).toEpochSeconds) 60) ++ (")")]⟩ := by
    simp only [echo]
    rw [if_neg (by simp)]
    rw [if_neg hreport, if_pos htext, hfind1]
    dsimp only
    rw [stdRecord_date, stdRecord_start_time]
    rw [parse_cells_roundtrip hvd hvt]
    rcases custom with _ | ct
    · simp only [hcustom]
      rfl
    · simp only [hcustom]
      rfl
  refine ⟨by rw [hres], ?_⟩
  rw [hres]
  simp only [applyAll, List.foldl, applyMutation, Nat.add_sub_cancel]
  rw [getD_append_length]
  rw [set_append_length]
  rw [getD_append_length]
  rw [set_append_length]
  apply findOpenRecord_eq_none_of_zero
  show openCount ((rows ++ [_]).map (recordOfRow stdHeader)) = 0
  rw [List.map_append, List.map_cons, List.map_nil, openCount, List.countP_append]
  have h1 : List.countP isOpenDict (rows.map (recordOfRow stdHeader)) = 0 := hno
  rw [h1]
  rw [List.countP_cons]
  have h2 : isOpenDict (recordOfRow stdHeader
      [formatYMD d, a, formatHMS t,
        formatHMS (endInstant d custom now2).time,
        format_duration (Int.tdiv
          ((endInstant d custom now2).toEpochSeconds
            - (PyDateTime.mk d t (some TZname)).toEpochSeconds) 60)]) = false :=
    stdRecord_closed _ _ _ _ _
  have h3 : (([formatYMD d, a, formatHMS t, (""), ("")].set (4 - 1)
        (formatHMS (endInstant d custom now2).time)).set (5 - 1)
        (format_duration (Int.tdiv
          ((endInstant d custom now2).toEpochSeconds
            - (PyDateTime.mk d t (some TZname)).toEpochSeconds) 60)))
      = [formatYMD d, a, formatHMS t,
          formatHMS (endInstant d custom now2).time,
          format_duration (Int.tdiv
            ((endInstant d custom now2).toEpochSeconds
              - (PyDateTime.mk d t (some TZname)).toEpochSeconds) 60)] := rfl
  rw [List.countP_nil, h3, h2]
  rfl

/-- Witness for C2's amended statement: "gym" started at 09:00:00 and
ended with "end 10:30" updates row 2 to end time "10:30:00" and
duration "1 h 30 min" (the truncated 90-minute difference), and the
re-scan finds no open session. -/
theorem c2_round_trip_truncated_witness :
    (echo true (applyAll (Sheet.mk stdHeader [])
          (echo true (Sheet.mk stdHeader []) ("gym") ⟨⟨2025, 3, 10⟩, ⟨9, 0, 0⟩, none⟩
            (fun _ => Except.ok ("")) ("")).mutations)
        ("end 10:30") ⟨⟨2025, 3, 10⟩, ⟨10, 35, 0⟩, none⟩
        (fun _ => Except.ok ("")) ("")).mutations
      = [Mutation.updateCell 2 4 ("10:30:00"), Mutation.updateCell 2 5 ("1 h 30 min")]
    ∧ findOpenRecord (get_all_records (applyAll
        (applyAll (Sheet.mk stdHeader [])
          (echo true (Sheet.mk stdHeader []) ("gym") ⟨⟨2025, 3, 10⟩, ⟨9, 0, 0⟩, none⟩
            (fun _ => Except.ok ("")) ("")).mutations)
        (echo true (applyAll (Sheet.mk stdHeader [])
            (echo true (Sheet.mk stdHeader []) ("gym") ⟨⟨2025, 3, 10⟩, ⟨9, 0, 0⟩, none⟩
              (fun _ => Except.ok ("")) ("")).mutations)
          ("end 10:30") ⟨⟨2025, 3, 10⟩, ⟨10, 35, 0⟩, none⟩
          (fun _ => Except.ok ("")) ("")).mutations)) = none :=
  c2_round_trip_truncated [] ("gym") ⟨⟨2025, 3, 10⟩, ⟨9, 0, 0⟩, none⟩
    ⟨⟨2025, 3, 10⟩, ⟨10, 35, 0⟩, none⟩ (fun _ => Except.ok ("")) ("")
    ⟨2025, 3, 10⟩ ⟨9, 0, 0⟩ ("Gym") (some ⟨10, 30, 0⟩) ("end 10:30")
    (by decide) (by decide) (by decide) (by decide) (by decide) (by decide)

/-! C6: the fractional-day time branch. -/

/-- Counterexample to C6 as stated: for f = 0.9997 (in [0,1)),
round(f*1440) = 1440, i.e. hour 24 — the datetime construction raises,
the exception is swallowed, and the parser falls back to the current
time (here noon, 720 minutes after midnight, not 1440). -/
theorem c6_counterexample :
    pyParseFloat (pyStrip ("0.9997")).data = some ((9997 : ℚ) / 10000)
    ∧ (0 : ℚ) ≤ (9997 : ℚ) / 10000
    ∧ ((9997 : ℚ) / 10000) < 1
    ∧ round (((9997 : ℚ) / 10000) * 1440) = 1440
    ∧ (parse_start_time_from_cells (some ("2025-03-10")) (some ("0.9997"))
        ⟨⟨2025, 3, 10⟩, ⟨12, 0, 0⟩, none⟩).time = ⟨12, 0, 0⟩
    ∧ (60 * 12 + 0 : ℤ) ≠ 1440 := by
  have hpf : pyParseFloat (pyStrip ("0.9997")).data = some ((9997 : ℚ) / 10000) := by
    have h1 : pyParseFloat (pyStrip ("0.9997")).data
        = some (((digitsToNat ['0'] : ℕ) : ℚ)
            + ((digitsToNat ['9', '9', '9', '7'] : ℕ) : ℚ) / (10 : ℚ) ^ (4 : ℕ)) := rfl
    have hd1 : digitsToNat ['0'] = 0 := by decide
    have hd2 : digitsToNat ['9', '9', '9', '7'] = 9997 := by decide
    rw [h1, hd1, hd2]
    norm_num
  have hfl : Int.floor (((9997 : ℚ) / 10000) * 24 * 60 + 1 / 2) = 1440 := by
    rw [show ((9997 : ℚ) / 10000) * 24 * 60 + 1 / 2 = 1440 + 17 / 250 by norm_num]
    norm_num [Int.floor_eq_iff]
  have hfr : fractionalTime (pyStrip ("0.9997")).data = none := by
    rw [fractionalTime, if_pos (by decide), hpf]
    dsimp only
    rw [if_pos (by norm_num), hfl]
    rw [if_neg (by decide : ¬((1440 : ℤ).toNat / 60 ≤ 23))]
  have htpc : tryParseTimeCell (pyStrip ("0.9997")).data = none := by
    rw [tryParseTimeCell, hfr]
    decide
  have hout : (parse_start_time_from_cells (some ("2025-03-10")) (some ("0.9997"))
      ⟨⟨2025, 3, 10⟩, ⟨12, 0, 0⟩, none⟩).time = ⟨12, 0, 0⟩ := by
    simp only [parse_start_time_from_cells, Option.getD_some]
    rw [if_neg (by decide : ¬(pyStrip ("0.9997") = ("")))]
    rw [htpc]
    rfl
  refine ⟨hpf, by norm_num, by norm_num, ?_, hout, by decide⟩
  rw [round_eq]
  rw [show ((9997 : ℚ) / 10000) * 1440 + 1 / 2 = 1440 + 17 / 250 by norm_num]
  norm_num [Int.floor_eq_iff]

/-- C6 amended: for every fractional value f in [0,1) whose decimal
cell string parses to it, as long as round(f*1440) is at most 1439 the
parsed instant's time of day is exactly round(f*1440) minutes after
midnight (with a valid date cell keeping its date); for the remaining
top half-minute of the day, round(f*1440) = 1440 names no time of day
and the parser instead falls back to the current time. -/
theorem c6_fractional_time (dateCell timeCell : String) (now : PyDateTime)
    (d : PyDate) (f : ℚ)
    (hdate : tryParseDateCell (pyStrip dateCell).data = some d)
    (hdot : containsDot (pyStrip timeCell).data = true
        ∨ pyIsDigit (pyStrip timeCell).data = true)
    (hf : pyParseFloat (pyStrip timeCell).data = some f)
    (h0 : 0 ≤ f) (h1 : f < 1) (hr : round (f * 1440) ≤ 1439) :
    (parse_start_time_from_cells (some dateCell) (some timeCell) now).date = d
    ∧ (60 * ((parse_start_time_from_cells (some dateCell) (some timeCell) now).time.hour : ℤ)
        + ((parse_start_time_from_cells (some dateCell) (some timeCell) now).time.minute : ℤ))
      = round (f * 1440)
    ∧ (parse_start_time_from_cells (some dateCell) (some timeCell) now).time.second = 0 := by
  have hne : pyStrip timeCell ≠ ("") := by
    intro h
    rw [h] at hf
    have h2 : (none : Option ℚ) = some f := hf
    cases h2
  have hdne : pyStrip dateCell ≠ ("") := by
    intro h
    rw [h] at hdate
    have h2 : (none : Option PyDate) = some d := hdate
    cases h2
  have hround0 : 0 ≤ round (f * 1440) := by
    rw [round_eq]
    refine Int.le_floor.mpr ?_
    push_cast
    nlinarith
  have htm : Int.floor (f * 24 * 60 + 1 / 2) = round (f * 1440) := by
    rw [round_eq, show f * 24 * 60 = f * 1440 by ring]
  have hfrac : fractionalTime (pyStrip timeCell).data
      = some ⟨(round (f * 1440)).toNat / 60, (round (f * 1440)).toNat % 60, 0⟩ := by
    rw [fractionalTime, if_pos (Bool.or_eq_true _ _ |>.mpr hdot), hf]
    dsimp only
    rw [if_pos ⟨h0, h1⟩, htm]
    rw [if_pos (by omega : (round (f * 1440)).toNat / 60 ≤ 23)]
  have htpc : tryParseTimeCell (pyStrip timeCell).data
      = some ⟨(round (f * 1440)).toNat / 60, (round (f * 1440)).toNat % 60, 0⟩ := by
    rw [tryParseTimeCell, hfrac]
  have hout : parse_start_time_from_cells (some dateCell) (some timeCell) now
      = ⟨d, ⟨(round (f * 1440)).toNat / 60, (round (f * 1440)).toNat % 60, 0⟩,
          some TZname⟩ := by
    simp only [parse_start_time_from_cells, Option.getD_some]
    rw [if_neg hne, htpc, if_neg hdne, hdate]
  rw [hout]
  refine ⟨rfl, ?_, rfl⟩
  show 60 * (((round (f * 1440)).toNat / 60 : ℕ) : ℤ)
      + (((round (f * 1440)).toNat % 60 : ℕ) : ℤ) = round (f * 1440)
  omega

/-- Witness for C6's amended statement: the cell "0.6875" yields 16:30,
i.e. 990 = round(0.6875*1440) minutes after midnight, keeping the
stored date. -/
theorem c6_fractional_time_witness :
    (parse_start_time_from_cells (some ("2025-03-10")) (some ("0.6875"))
        ⟨⟨2025, 3, 10⟩, ⟨12, 0, 0⟩, none⟩).date = ⟨2025, 3, 10⟩
    ∧ (60 * ((parse_start_time_from_cells (some ("2025-03-10")) (some ("0.6875"))
          ⟨⟨2025, 3, 10⟩, ⟨12, 0, 0⟩, none⟩).time.hour : ℤ)
        + ((parse_start_time_from_cells (some ("2025-03-10")) (some ("0.6875"))
          ⟨⟨2025, 3, 10⟩, ⟨12, 0, 0⟩, none⟩).time.minute : ℤ))
      = round (((11 : ℚ) / 16) * 1440)
    ∧ (parse_start_time_from_cells (some ("2025-03-10")) (some ("0.6875"))
        ⟨⟨2025, 3, 10⟩, ⟨12, 0, 0⟩, none⟩).time.second = 0 :=
  c6_fractional_time ("2025-03-10") ("0.6875") ⟨⟨2025, 3, 10⟩, ⟨12, 0, 0⟩, none⟩
    ⟨2025, 3, 10⟩ ((11 : ℚ) / 16) (by decide) (Or.inl (by decide))
    (by
      have h1 : pyParseFloat (pyStrip ("0.6875")).data
          = some (((digitsToNat ['0'] : ℕ) : ℚ)
              + ((digitsToNat ['6', '8', '7', '5'] : ℕ) : ℚ) / (10 : ℚ) ^ (4 : ℕ)) := rfl
      have hd1 : digitsToNat ['0'] = 0 := by decide
      have hd2 : digitsToNat ['6', '8', '7', '5'] = 6875 := by decide
      rw [h1, hd1, hd2]
      norm_num)
    (by norm_num) (by norm_num)
    (by
      have h2 : ((11 : ℚ) / 16) * 1440 + 1 / 2 = 990 + 1 / 2 := by norm_num
      have h3 : round (((11 : ℚ) / 16) * 1440) = 990 := by
        rw [round_eq, h2]
        norm_num [Int.floor_eq_iff]
      omega)

end ActivityLogger
